import Mathlib

/-!
# moonlander-music-visualizer: decoder and tap-dance engine

A shallow embedding of

* `src/portable_musicviz/musicviz.h` (the record `musicviz_state_t`),
* `src/firmware/moonlander_musicviz_integrated/musicviz_core.c`
  (`raw_hid_receive`, the raw HID message decoder),
* `src/firmware/moonlander_musicviz_integrated/keymap.c`
  (`dance_step`, `dance_N_finished`, `dance_N_reset`, `tap_dance_actions`),

followed by theorems about them.

Conventions.  A `uint8_t` or `uint32_t` value is a `Nat`; the code performs no
arithmetic on them, so nothing can wrap, and the ranges are recorded by the
predicates `musicviz_state_t.wf` and `is_bytes`.  The global `mv` and the
global array `dance_state` are passed in and returned explicitly.  Calls into
the keyboard framework (`register_code16`, `unregister_code16`, `wait_ms`) are
recorded, in program order, in a list of `Effect`s.
-/

namespace MusicViz

/-! ## musicviz.h -/

/-- The record `musicviz_state_t`, fields in declaration order.  Every field is
a `uint8_t` except `last_rx_ms` and `last_beat_ms`, which are `uint32_t`. -/
structure musicviz_state_t where
  enabled : Nat
  master_gain : Nat
  loudness_rms : Nat
  loudness_peak : Nat
  bass : Nat
  mid : Nat
  treble : Nat
  beat : Nat
  hue_bass : Nat
  hue_mid : Nat
  hue_treble : Nat
  saturation : Nat
  fx_speed : Nat
  shockwave_strength : Nat
  perimeter_sparkle : Nat
  beat_refractory_ms : Nat
  last_rx_ms : Nat
  last_beat_ms : Nat
  strobe_enable : Nat
  safety_limit : Nat
deriving DecidableEq, Repr

/-- Range of the C types of the record: sixteen plus two `uint8_t` fields and
two `uint32_t` time stamps. -/
def musicviz_state_t.wf (s : musicviz_state_t) : Prop :=
  s.enabled < 256 ∧ s.master_gain < 256 ∧ s.loudness_rms < 256 ∧
  s.loudness_peak < 256 ∧ s.bass < 256 ∧ s.mid < 256 ∧ s.treble < 256 ∧
  s.beat < 256 ∧ s.hue_bass < 256 ∧ s.hue_mid < 256 ∧ s.hue_treble < 256 ∧
  s.saturation < 256 ∧ s.fx_speed < 256 ∧ s.shockwave_strength < 256 ∧
  s.perimeter_sparkle < 256 ∧ s.beat_refractory_ms < 256 ∧
  s.last_rx_ms < 2 ^ 32 ∧ s.last_beat_ms < 2 ^ 32 ∧
  s.strobe_enable < 256 ∧ s.safety_limit < 256

instance (s : musicviz_state_t) : Decidable s.wf := by
  unfold musicviz_state_t.wf; infer_instance

/-- The initial value of the global, `musicviz_state_t mv = {0};`. -/
def mv_init : musicviz_state_t :=
  { enabled := 0, master_gain := 0, loudness_rms := 0, loudness_peak := 0,
    bass := 0, mid := 0, treble := 0, beat := 0, hue_bass := 0, hue_mid := 0,
    hue_treble := 0, saturation := 0, fx_speed := 0, shockwave_strength := 0,
    perimeter_sparkle := 0, beat_refractory_ms := 0, last_rx_ms := 0,
    last_beat_ms := 0, strobe_enable := 0, safety_limit := 0 }

/-! ## musicviz_core.c -/

/-- A buffer of `uint8_t`: every element is below 256. -/
def is_bytes (data : List Nat) : Prop := ∀ b ∈ data, b < 256

instance (data : List Nat) : Decidable (is_bytes data) := by
  unfold is_bytes; infer_instance

/-- The function `raw_hid_receive(uint8_t *data, uint8_t length)`.

* `mv` is the value of the global record before the call, the result its value
  after the call;
* `data` is the buffer the pointer designates, `data[i]` being
  `data.getD i 0` (the framework hands over at least `length` readable bytes);
* `length` is the second argument;
* `now` is the value `timer_read32()` returns when it is called on the last
  line. -/
def raw_hid_receive (mv : musicviz_state_t) (data : List Nat) (length : Nat)
    (now : Nat) : musicviz_state_t :=
  if length < 32 then mv
  else if data.getD 0 0 ≠ 0x4D then mv
  else if data.getD 1 0 ≠ 0x01 then mv
  else
    let flags := data.getD 2 0
    { mv with
      enabled := if flags &&& 0x01 ≠ 0 then 1 else 0
      strobe_enable := if flags &&& 0x02 ≠ 0 then 1 else 0
      safety_limit := if flags &&& 0x04 ≠ 0 then 1 else 0
      master_gain := data.getD 3 0
      loudness_rms := data.getD 4 0
      loudness_peak := data.getD 5 0
      bass := data.getD 6 0
      mid := data.getD 7 0
      treble := data.getD 8 0
      beat := data.getD 9 0
      hue_bass := data.getD 10 0
      hue_mid := data.getD 11 0
      hue_treble := data.getD 12 0
      saturation := data.getD 13 0
      fx_speed := data.getD 14 0
      shockwave_strength := data.getD 15 0
      perimeter_sparkle := data.getD 16 0
      beat_refractory_ms := data.getD 17 0
      last_rx_ms := now }

/-- A message the decoder accepts: the three guards of `raw_hid_receive` all
fall through. -/
def accepted (data : List Nat) (length : Nat) : Prop :=
  32 ≤ length ∧ data.getD 0 0 = 0x4D ∧ data.getD 1 0 = 0x01

instance (data : List Nat) (length : Nat) : Decidable (accepted data length) := by
  unfold accepted; infer_instance

/-- A sample record with every field set, used to instantiate the theorems. -/
def mv_sample : musicviz_state_t :=
  { enabled := 1, master_gain := 200, loudness_rms := 17, loudness_peak := 90,
    bass := 255, mid := 128, treble := 3, beat := 1, hue_bass := 10,
    hue_mid := 85, hue_treble := 170, saturation := 240, fx_speed := 64,
    shockwave_strength := 33, perimeter_sparkle := 77, beat_refractory_ms := 120,
    last_rx_ms := 123456, last_beat_ms := 123400, strobe_enable := 0,
    safety_limit := 1 }

/-- A sample full-size frame: magic, version, flags `0b00000101`, the fifteen
numeric bytes 3 to 17, and fourteen reserved bytes. -/
def msg_sample : List Nat :=
  [0x4D, 0x01, 0x05, 11, 12, 13, 14, 15, 16, 17, 18, 19, 20, 21, 22, 23, 24, 25,
   0, 0, 0, 0, 0, 0, 0, 0, 0, 0, 0, 0, 0, 0]

/-- A frame with the right magic but protocol version 2. -/
def msg_bad_version : List Nat :=
  [0x4D, 0x02, 0x05, 11, 12, 13, 14, 15, 16, 17, 18, 19, 20, 21, 22, 23, 24, 25,
   0, 0, 0, 0, 0, 0, 0, 0, 0, 0, 0, 0, 0, 0]

/-- A frame with the right version but a wrong magic byte. -/
def msg_bad_magic : List Nat :=
  [0x4E, 0x01, 0x05, 11, 12, 13, 14, 15, 16, 17, 18, 19, 20, 21, 22, 23, 24, 25,
   0, 0, 0, 0, 0, 0, 0, 0, 0, 0, 0, 0, 0, 0]

/-- The three flags of a record are boolean: each is 0 or 1. -/
def flags_boolean (r : musicviz_state_t) : Prop :=
  r.enabled ≤ 1 ∧ r.strobe_enable ≤ 1 ∧ r.safety_limit ≤ 1

instance (r : musicviz_state_t) : Decidable (flags_boolean r) := by
  unfold flags_boolean; infer_instance

/-- Modelled from the spec: the sender of the frames is not among the sources;
this is the wire table of section 6 read as an encoder.  Byte 0 is the magic
`0x4D`, byte 1 the version `0x01`, byte 2 carries `enabled`, `strobe_enable`
and `safety_limit` in bits 0, 1 and 2 (and `hi` in the reserved bits 3 to 7),
bytes 3 to 17 carry the fifteen numeric fields in table order, and `tail` is
the content of the reserved bytes from offset 18 on. -/
def encode (r : musicviz_state_t) (hi : Nat) (tail : List Nat) : List Nat :=
  [0x4D, 0x01, r.enabled + 2 * r.strobe_enable + 4 * r.safety_limit + 8 * hi,
   r.master_gain, r.loudness_rms, r.loudness_peak, r.bass, r.mid, r.treble,
   r.beat, r.hue_bass, r.hue_mid, r.hue_treble, r.saturation, r.fx_speed,
   r.shockwave_strength, r.perimeter_sparkle, r.beat_refractory_ms] ++ tail

/-- Fourteen reserved bytes, not all zero. -/
def tail_sample : List Nat := [1, 2, 3, 4, 5, 6, 7, 8, 9, 10, 11, 12, 13, 255]

/-! ## keymap.c: the tap-dance engine -/

/-- The fields of the framework type `tap_dance_state_t` that `dance_step`
reads: `count` (a `uint8_t`), `interrupted` and `pressed` (both `bool`).  The
type itself is declared by the keyboard framework, outside these sources. -/
structure tap_dance_state_t where
  count : Nat
  interrupted : Bool
  pressed : Bool
deriving DecidableEq, Repr

/-- The type `tap`: `typedef struct { bool is_press_action; uint8_t step; } tap;`. -/
structure tap where
  is_press_action : Bool
  step : Nat
deriving DecidableEq, Repr

/-! The anonymous enumeration
`enum { SINGLE_TAP = 1, SINGLE_HOLD, DOUBLE_TAP, DOUBLE_HOLD, DOUBLE_SINGLE_TAP, MORE_TAPS };` -/

/-- Enumerator `SINGLE_TAP = 1`. -/
def SINGLE_TAP : Nat := 1
/-- Enumerator `SINGLE_HOLD`. -/
def SINGLE_HOLD : Nat := 2
/-- Enumerator `DOUBLE_TAP`. -/
def DOUBLE_TAP : Nat := 3
/-- Enumerator `DOUBLE_HOLD`. -/
def DOUBLE_HOLD : Nat := 4
/-- Enumerator `DOUBLE_SINGLE_TAP`. -/
def DOUBLE_SINGLE_TAP : Nat := 5
/-- Enumerator `MORE_TAPS`. -/
def MORE_TAPS : Nat := 6

/-- The function `dance_step`. -/
def dance_step (state : tap_dance_state_t) : Nat :=
  if state.count = 1 then
    if state.interrupted || !state.pressed then SINGLE_TAP else SINGLE_HOLD
  else if state.count = 2 then
    if state.interrupted then DOUBLE_SINGLE_TAP
    else if state.pressed then DOUBLE_HOLD
    else DOUBLE_TAP
  else MORE_TAPS

/-- Key codes as the source writes them: the four basic keys used by the
dances and the framework's modifier wrappers, kept symbolic (their numeric
values are the framework's and play no role in the engine). -/
inductive Keycode where
  | KC_L
  | KC_PSCR
  | KC_Q
  | KC_3
  | RGUI (kc : Keycode)
  | LCTL (kc : Keycode)
  | LGUI (kc : Keycode)
  | RSFT (kc : Keycode)
deriving DecidableEq, Repr

/-- One call into the keyboard framework made by the engine. -/
inductive Effect where
  | register_code16 (kc : Keycode)
  | unregister_code16 (kc : Keycode)
  | wait_ms (ms : Nat)
deriving DecidableEq, Repr

open Keycode Effect

/-- The global `static tap dance_state[4];`. -/
abbrev dance_state_t : Type := Fin 4 → tap

/-- Static storage is zero-initialised. -/
def dance_state_init : dance_state_t := fun _ => { is_press_action := false, step := 0 }

/-- The assignment `dance_state[i].step = v;`. -/
def set_step (ds : dance_state_t) (i : Fin 4) (v : Nat) : dance_state_t :=
  Function.update ds i { ds i with step := v }

/-- The statement `switch (step) { case DOUBLE_TAP: act; break; }`: the calls
made by a switch whose only case is `DOUBLE_TAP`. -/
def switch_double_tap (step : Nat) (act : Effect) : List Effect :=
  if step = DOUBLE_TAP then [act] else []

/-- The function `dance_0_finished`; the result is the array afterwards and
the framework calls made, in order. -/
def dance_0_finished (ds : dance_state_t) (state : tap_dance_state_t) :
    dance_state_t × List Effect :=
  let ds := set_step ds 0 (dance_step state)
  (ds, switch_double_tap (ds 0).step (register_code16 (RGUI KC_L)))

/-- The function `dance_0_reset`. -/
def dance_0_reset (ds : dance_state_t) (_state : tap_dance_state_t) :
    dance_state_t × List Effect :=
  let tr := [wait_ms 10] ++ switch_double_tap (ds 0).step (unregister_code16 (RGUI KC_L))
  (set_step ds 0 0, tr)

/-- The function `dance_1_finished`. -/
def dance_1_finished (ds : dance_state_t) (state : tap_dance_state_t) :
    dance_state_t × List Effect :=
  let ds := set_step ds 1 (dance_step state)
  (ds, switch_double_tap (ds 1).step (register_code16 KC_PSCR))

/-- The function `dance_1_reset`. -/
def dance_1_reset (ds : dance_state_t) (_state : tap_dance_state_t) :
    dance_state_t × List Effect :=
  let tr := [wait_ms 10] ++ switch_double_tap (ds 1).step (unregister_code16 KC_PSCR)
  (set_step ds 1 0, tr)

/-- The function `dance_2_finished`. -/
def dance_2_finished (ds : dance_state_t) (state : tap_dance_state_t) :
    dance_state_t × List Effect :=
  let ds := set_step ds 2 (dance_step state)
  (ds, switch_double_tap (ds 2).step (register_code16 (LCTL (LGUI KC_Q))))

/-- The function `dance_2_reset`. -/
def dance_2_reset (ds : dance_state_t) (_state : tap_dance_state_t) :
    dance_state_t × List Effect :=
  let tr := [wait_ms 10] ++
    switch_double_tap (ds 2).step (unregister_code16 (LCTL (LGUI KC_Q)))
  (set_step ds 2 0, tr)

/-- The function `dance_3_finished`. -/
def dance_3_finished (ds : dance_state_t) (state : tap_dance_state_t) :
    dance_state_t × List Effect :=
  let ds := set_step ds 3 (dance_step state)
  (ds, switch_double_tap (ds 3).step (register_code16 (LGUI (RSFT KC_3))))

/-- The function `dance_3_reset`. -/
def dance_3_reset (ds : dance_state_t) (_state : tap_dance_state_t) :
    dance_state_t × List Effect :=
  let tr := [wait_ms 10] ++
    switch_double_tap (ds 3).step (unregister_code16 (LGUI (RSFT KC_3)))
  (set_step ds 3 0, tr)

/-- An entry of `tap_dance_actions[]` as built by
`ACTION_TAP_DANCE_FN_ADVANCED(NULL, finished, reset)`. -/
structure tap_dance_action_t where
  on_dance_finished : dance_state_t → tap_dance_state_t → dance_state_t × List Effect
  on_reset : dance_state_t → tap_dance_state_t → dance_state_t × List Effect

/-- The table `tap_dance_actions[]`, indexed by `DANCE_0 .. DANCE_3`. -/
def tap_dance_actions : Fin 4 → tap_dance_action_t
  | 0 => { on_dance_finished := dance_0_finished, on_reset := dance_0_reset }
  | 1 => { on_dance_finished := dance_1_finished, on_reset := dance_1_reset }
  | 2 => { on_dance_finished := dance_2_finished, on_reset := dance_2_reset }
  | 3 => { on_dance_finished := dance_3_finished, on_reset := dance_3_reset }

/-- The key combination instance `i` registers and unregisters. -/
def combo : Fin 4 → Keycode
  | 0 => RGUI KC_L
  | 1 => KC_PSCR
  | 2 => LCTL (LGUI KC_Q)
  | 3 => LGUI (RSFT KC_3)

/-! ### Traces of the engine -/

/-- Whether a framework call is a key action (a press or a release). -/
def Effect.is_key_action : Effect → Bool
  | register_code16 _ => true
  | unregister_code16 _ => true
  | wait_ms _ => false

/-- The key actions of a trace, in order. -/
def key_actions (tr : List Effect) : List Effect := tr.filter Effect.is_key_action

/-- A call the gesture recogniser makes on one instance, with the observation
it passes. -/
inductive Call where
  | on_finish (obs : tap_dance_state_t)
  | on_reset (obs : tap_dance_state_t)
deriving DecidableEq, Repr

/-- Run one recogniser call on instance `i` through `tap_dance_actions`. -/
def run_call (i : Fin 4) (ds : dance_state_t) : Call → dance_state_t × List Effect
  | Call.on_finish obs => (tap_dance_actions i).on_dance_finished ds obs
  | Call.on_reset obs => (tap_dance_actions i).on_reset ds obs

/-- Run a sequence of recogniser calls on instance `i`, concatenating the
traces. -/
def run_calls (i : Fin 4) (ds : dance_state_t) : List Call → dance_state_t × List Effect
  | [] => (ds, [])
  | c :: rest =>
    let r := run_call i ds c
    let q := run_calls i r.1 rest
    (q.1, r.2 ++ q.2)

/-- Every press of `kc` in the trace is followed, later in the trace, by a
release of `kc`. -/
def every_press_released (kc : Keycode) : List Effect → Bool
  | [] => true
  | e :: rest =>
    (if e = register_code16 kc then decide (unregister_code16 kc ∈ rest) else true)
      && every_press_released kc rest

/-- Whether the virtual key `kc` is down after the trace, given whether it was
down before: a press puts it down, a release lifts it. -/
def key_down (kc : Keycode) (before : Bool) (tr : List Effect) : Bool :=
  tr.foldl
    (fun d e =>
      if e = register_code16 kc then true
      else if e = unregister_code16 kc then false
      else d)
    before

/-- The call is an `on_finish` whose observation classifies as `DOUBLE_TAP`. -/
def Call.is_double_tap : Call → Bool
  | Call.on_finish obs => decide (dance_step obs = DOUBLE_TAP)
  | Call.on_reset _ => false

/-- The sequence begins with an `on_reset`. -/
def starts_with_reset : List Call → Bool
  | Call.on_reset _ :: _ => true
  | _ => false

/-- The sequence ends with an `on_reset`. -/
def ends_with_reset (calls : List Call) : Bool :=
  match calls.getLast? with
  | some (Call.on_reset _) => true
  | _ => false

/-- The last `on_finish` of the sequence that classifies as `DOUBLE_TAP`, if
there is one, is immediately followed by an `on_reset`. -/
def last_double_tap_then_reset : List Call → Bool
  | [] => true
  | c :: rest =>
    if rest.any Call.is_double_tap then last_double_tap_then_reset rest
    else (!c.is_double_tap || starts_with_reset rest)

/-- No `on_finish` is directly followed by another `on_finish`: the recogniser
never retries a finish before the reset. -/
def no_retry : List Call → Bool
  | Call.on_finish _ :: Call.on_finish _ :: _ => false
  | _ :: rest => no_retry rest
  | [] => true

/-- The three observations used to instantiate the theorems. -/
def obs_double_tap : tap_dance_state_t := { count := 2, interrupted := false, pressed := false }

/-- A single tap that is still held. -/
def obs_single_hold : tap_dance_state_t := { count := 1, interrupted := false, pressed := true }

/-- A single completed tap. -/
def obs_single_tap : tap_dance_state_t := { count := 1, interrupted := false, pressed := false }

/-- A retry: a finish that classifies as `DOUBLE_TAP`, a second finish that
classifies as `SINGLE_TAP` before any reset, then the reset. -/
def calls_retry : List Call :=
  [Call.on_finish obs_double_tap, Call.on_finish obs_single_tap, Call.on_reset obs_single_tap]

/-- A retry that repeats the same observation: two `DOUBLE_TAP` finishes, then
the reset. -/
def calls_retry_same : List Call :=
  [Call.on_finish obs_double_tap, Call.on_finish obs_double_tap, Call.on_reset obs_double_tap]

/-- Two complete gestures without retry: a double tap and its reset, a held
single tap and its reset. -/
def calls_plain : List Call :=
  [Call.on_finish obs_double_tap, Call.on_reset obs_double_tap,
   Call.on_finish obs_single_hold, Call.on_reset obs_single_hold]

/-- A frame that agrees with `msg_sample` on bytes 0 to 17 and differs from it
in every later byte and in length (40 bytes instead of 32). -/
def msg_sample_long : List Nat :=
  [0x4D, 0x01, 0x05, 11, 12, 13, 14, 15, 16, 17, 18, 19, 20, 21, 22, 23, 24, 25,
   255, 254, 253, 252, 251, 250, 249, 248, 247, 246, 245, 244, 243, 242,
   1, 2, 3, 4, 5, 6, 7, 8]

/-- A record that differs from `mv_sample` in every field except
`last_beat_ms`. -/
def mv_other : musicviz_state_t :=
  { enabled := 0, master_gain := 1, loudness_rms := 2, loudness_peak := 3,
    bass := 4, mid := 5, treble := 6, beat := 7, hue_bass := 8,
    hue_mid := 9, hue_treble := 10, saturation := 11, fx_speed := 12,
    shockwave_strength := 13, perimeter_sparkle := 14, beat_refractory_ms := 15,
    last_rx_ms := 16, last_beat_ms := 123400, strobe_enable := 1,
    safety_limit := 0 }

/-- An array whose four slots hold different classes: `DOUBLE_TAP`,
`DOUBLE_HOLD`, `DOUBLE_SINGLE_TAP` and `MORE_TAPS`. -/
def ds_sample : dance_state_t := fun k => { is_press_action := false, step := k.val + 3 }

/-- An observation with a tap count of 0. -/
def obs_zero : tap_dance_state_t := { count := 0, interrupted := false, pressed := true }

/-! ## Theorems: the decoder -/

/-- On an accepted message the decoder takes its last branch. -/
theorem raw_hid_receive_accepted (mv : musicviz_state_t) (data : List Nat) (length now : Nat)
    (h : accepted data length) :
    raw_hid_receive mv data length now =
      { mv with
        enabled := if data.getD 2 0 &&& 0x01 ≠ 0 then 1 else 0
        strobe_enable := if data.getD 2 0 &&& 0x02 ≠ 0 then 1 else 0
        safety_limit := if data.getD 2 0 &&& 0x04 ≠ 0 then 1 else 0
        master_gain := data.getD 3 0
        loudness_rms := data.getD 4 0
        loudness_peak := data.getD 5 0
        bass := data.getD 6 0
        mid := data.getD 7 0
        treble := data.getD 8 0
        beat := data.getD 9 0
        hue_bass := data.getD 10 0
        hue_mid := data.getD 11 0
        hue_treble := data.getD 12 0
        saturation := data.getD 13 0
        fx_speed := data.getD 14 0
        shockwave_strength := data.getD 15 0
        perimeter_sparkle := data.getD 16 0
        beat_refractory_ms := data.getD 17 0
        last_rx_ms := now } := by
  obtain ⟨h32, h0, h1⟩ := h
  unfold raw_hid_receive
  rw [if_neg (Nat.not_lt.mpr h32), if_neg (not_not.mpr h0), if_neg (not_not.mpr h1)]

/-- C1. A message whose length is below 32 is rejected whatever its bytes: the
stored record is the same afterwards, in every field. -/
theorem raw_hid_receive_short_unchanged (mv : musicviz_state_t) (data : List Nat)
    (length now : Nat) (h : length < 32) :
    raw_hid_receive mv data length now = mv := by
  unfold raw_hid_receive
  rw [if_pos h]

/-- C1, instance: the sample frame, correct magic and version, announced with
length 31. -/
theorem raw_hid_receive_short_unchanged_witness :
    31 < 32 ∧ raw_hid_receive mv_sample msg_sample 31 999 = mv_sample :=
  ⟨by decide, raw_hid_receive_short_unchanged mv_sample msg_sample 31 999 (by decide)⟩

/-- The value of `(f & 0x01) ? 1 : 0`. -/
theorem flag_bit0 (f : Nat) : (if f &&& 0x01 ≠ 0 then 1 else 0) = (f.testBit 0).toNat := by
  have h := Nat.and_two_pow f 0
  rw [show (2 : Nat) ^ 0 = 0x01 from rfl] at h
  rw [h]
  cases f.testBit 0 <;> rfl

/-- The value of `(f & 0x02) ? 1 : 0`. -/
theorem flag_bit1 (f : Nat) : (if f &&& 0x02 ≠ 0 then 1 else 0) = (f.testBit 1).toNat := by
  have h := Nat.and_two_pow f 1
  rw [show (2 : Nat) ^ 1 = 0x02 from rfl] at h
  rw [h]
  cases f.testBit 1 <;> rfl

/-- The value of `(f & 0x04) ? 1 : 0`. -/
theorem flag_bit2 (f : Nat) : (if f &&& 0x04 ≠ 0 then 1 else 0) = (f.testBit 2).toNat := by
  have h := Nat.and_two_pow f 2
  rw [show (2 : Nat) ^ 2 = 0x04 from rfl] at h
  rw [h]
  cases f.testBit 2 <;> rfl

/-- Bits 0 to 2 of a number are those of its remainder modulo 8. -/
theorem testBit_low3 (f g i : Nat) (hi : i < 3) (h : f % 8 = g % 8) :
    f.testBit i = g.testBit i := by
  have a := Nat.testBit_mod_two_pow f 3 i
  have b := Nat.testBit_mod_two_pow g 3 i
  rw [decide_eq_true hi, Bool.true_and] at a b
  rw [← a, ← b]
  show (f % 8).testBit i = (g % 8).testBit i
  rw [h]

/-- The three flags after an accepted message, as bits of the flags byte. -/
theorem raw_hid_receive_flag_values (mv : musicviz_state_t) (data : List Nat)
    (length now : Nat) (h : accepted data length) :
    (raw_hid_receive mv data length now).enabled = ((data.getD 2 0).testBit 0).toNat ∧
    (raw_hid_receive mv data length now).strobe_enable = ((data.getD 2 0).testBit 1).toNat ∧
    (raw_hid_receive mv data length now).safety_limit = ((data.getD 2 0).testBit 2).toNat := by
  rw [raw_hid_receive_accepted mv data length now h]
  exact ⟨flag_bit0 _, flag_bit1 _, flag_bit2 _⟩

/-- Reading a buffer of bytes gives a byte, also past its end. -/
theorem getD_lt_of_is_bytes (data : List Nat) (i : Nat) (h : is_bytes data) :
    data.getD i 0 < 256 := by
  by_cases hi : i < data.length
  · rw [List.getD_eq_getElem data 0 hi]
    exact h _ (List.getElem_mem hi)
  · rw [List.getD_eq_default data 0 (Nat.le_of_not_lt hi)]
    decide

/-- The decoder keeps the record within the ranges of its C types: from a
record in range, a buffer of bytes and a 32-bit clock value, the record after
the call is in range, whether the message was accepted or not. -/
theorem raw_hid_receive_wf (mv : musicviz_state_t) (data : List Nat) (length now : Nat)
    (hmv : mv.wf) (hd : is_bytes data) (hnow : now < 2 ^ 32) :
    (raw_hid_receive mv data length now).wf := by
  by_cases hacc : accepted data length
  · rw [raw_hid_receive_accepted mv data length now hacc, flag_bit0, flag_bit1, flag_bit2]
    have b := fun i => getD_lt_of_is_bytes data i hd
    have t : ∀ c : Bool, c.toNat < 256 := by decide
    obtain ⟨_, _, _, _, _, _, _, _, _, _, _, _, _, _, _, _, _, hbeat, _, _⟩ := hmv
    exact ⟨t _, b 3, b 4, b 5, b 6, b 7, b 8, b 9, b 10, b 11, b 12, b 13, b 14, b 15,
      b 16, b 17, hnow, hbeat, t _, t _⟩
  · have hrej : raw_hid_receive mv data length now = mv := by
      unfold raw_hid_receive
      by_cases h32 : length < 32
      · rw [if_pos h32]
      · rw [if_neg h32]
        by_cases h0 : data.getD 0 0 = 0x4D
        · rw [if_neg (not_not.mpr h0)]
          by_cases h1 : data.getD 1 0 = 0x01
          · exact absurd ⟨Nat.le_of_not_lt h32, h0, h1⟩ hacc
          · rw [if_pos h1]
        · rw [if_pos h0]
    rw [hrej]
    exact hmv

/-- Instance of `raw_hid_receive_wf`: the sample frame over the sample record. -/
theorem raw_hid_receive_wf_witness :
    mv_sample.wf ∧ is_bytes msg_sample ∧ 999 < 2 ^ 32 ∧
    (raw_hid_receive mv_sample msg_sample 32 999).wf :=
  ⟨by decide, by decide, by decide,
    raw_hid_receive_wf mv_sample msg_sample 32 999 (by decide) (by decide) (by decide)⟩

/-- C2. A message of length at least 32 whose byte 0 is not the magic `0x4D`
or whose byte 1 is not the version `0x01` is rejected: the stored record is the
same afterwards, in every field (nothing is partially written and `last_rx_ms`
is not stamped). -/
theorem raw_hid_receive_bad_header_unchanged (mv : musicviz_state_t) (data : List Nat)
    (length now : Nat) (h32 : 32 ≤ length)
    (hbad : data.getD 0 0 ≠ 0x4D ∨ data.getD 1 0 ≠ 0x01) :
    raw_hid_receive mv data length now = mv := by
  unfold raw_hid_receive
  rw [if_neg (Nat.not_lt.mpr h32)]
  by_cases h0 : data.getD 0 0 = 0x4D
  · rw [if_neg (not_not.mpr h0), if_pos (hbad.resolve_left (not_not.mpr h0))]
  · rw [if_pos h0]

/-- C2, instances: a full-size frame with version 2, and one with magic `0x4E`. -/
theorem raw_hid_receive_bad_header_unchanged_witness :
    (32 ≤ 32 ∧ msg_bad_version.getD 1 0 ≠ 0x01 ∧
      raw_hid_receive mv_sample msg_bad_version 32 999 = mv_sample) ∧
    (32 ≤ 64 ∧ msg_bad_magic.getD 0 0 ≠ 0x4D ∧
      raw_hid_receive mv_sample msg_bad_magic 64 999 = mv_sample) :=
  ⟨⟨by decide, by decide,
      raw_hid_receive_bad_header_unchanged mv_sample msg_bad_version 32 999 (by decide)
        (Or.inr (by decide))⟩,
    ⟨by decide, by decide,
      raw_hid_receive_bad_header_unchanged mv_sample msg_bad_magic 64 999 (by decide)
        (Or.inl (by decide))⟩⟩

/-- C3. On an accepted message with flags byte `f` at offset 2: `enabled` is 1
exactly when bit 0 of `f` is set, `strobe_enable` exactly when bit 1 is set,
`safety_limit` exactly when bit 2 is set; each flag is 0 or 1; bits 3 to 7 of
`f` have no influence (any accepted message whose flags byte has the same three
low bits yields the same three flags, from any prior state); and `f = 0b00000101`
gives `enabled = 1`, `strobe_enable = 0`, `safety_limit = 1`. -/
theorem raw_hid_receive_flags (mv : musicviz_state_t) (data : List Nat) (length now : Nat)
    (h : accepted data length) :
    ((raw_hid_receive mv data length now).enabled = 1 ↔ (data.getD 2 0).testBit 0 = true) ∧
    ((raw_hid_receive mv data length now).strobe_enable = 1 ↔
      (data.getD 2 0).testBit 1 = true) ∧
    ((raw_hid_receive mv data length now).safety_limit = 1 ↔
      (data.getD 2 0).testBit 2 = true) ∧
    ((raw_hid_receive mv data length now).enabled = 0 ∨
      (raw_hid_receive mv data length now).enabled = 1) ∧
    ((raw_hid_receive mv data length now).strobe_enable = 0 ∨
      (raw_hid_receive mv data length now).strobe_enable = 1) ∧
    ((raw_hid_receive mv data length now).safety_limit = 0 ∨
      (raw_hid_receive mv data length now).safety_limit = 1) ∧
    (∀ (mv2 : musicviz_state_t) (data2 : List Nat) (length2 now2 : Nat),
      accepted data2 length2 → data2.getD 2 0 % 8 = data.getD 2 0 % 8 →
      (raw_hid_receive mv2 data2 length2 now2).enabled =
        (raw_hid_receive mv data length now).enabled ∧
      (raw_hid_receive mv2 data2 length2 now2).strobe_enable =
        (raw_hid_receive mv data length now).strobe_enable ∧
      (raw_hid_receive mv2 data2 length2 now2).safety_limit =
        (raw_hid_receive mv data length now).safety_limit) ∧
    (data.getD 2 0 = 0b00000101 →
      (raw_hid_receive mv data length now).enabled = 1 ∧
      (raw_hid_receive mv data length now).strobe_enable = 0 ∧
      (raw_hid_receive mv data length now).safety_limit = 1) := by
  obtain ⟨v0, v1, v2⟩ := raw_hid_receive_flag_values mv data length now h
  rw [v0, v1, v2]
  refine ⟨?_, ?_, ?_, ?_, ?_, ?_, ?_, ?_⟩
  · cases (data.getD 2 0).testBit 0 <;> decide
  · cases (data.getD 2 0).testBit 1 <;> decide
  · cases (data.getD 2 0).testBit 2 <;> decide
  · cases (data.getD 2 0).testBit 0 <;> decide
  · cases (data.getD 2 0).testBit 1 <;> decide
  · cases (data.getD 2 0).testBit 2 <;> decide
  · intro mv2 data2 length2 now2 h2 hlow
    obtain ⟨w0, w1, w2⟩ := raw_hid_receive_flag_values mv2 data2 length2 now2 h2
    rw [w0, w1, w2, testBit_low3 _ _ 0 (by decide) hlow, testBit_low3 _ _ 1 (by decide) hlow,
      testBit_low3 _ _ 2 (by decide) hlow]
    exact ⟨rfl, rfl, rfl⟩
  · intro hf
    rw [hf]
    exact ⟨by decide, by decide, by decide⟩

/-- C3, instance: the sample frame, whose flags byte is `0b00000101`, decoded
over the sample record. -/
theorem raw_hid_receive_flags_witness :
    accepted msg_sample 32 ∧
    (raw_hid_receive mv_sample msg_sample 32 999).enabled = 1 ∧
    (raw_hid_receive mv_sample msg_sample 32 999).strobe_enable = 0 ∧
    (raw_hid_receive mv_sample msg_sample 32 999).safety_limit = 1 :=
  ⟨by decide,
    (raw_hid_receive_flags mv_sample msg_sample 32 999 (by decide)).2.2.2.2.2.2.2 (by decide)⟩

/-- C4. On an accepted message the fifteen numeric fields are the message
bytes at offsets 3 to 17, taken as they are (no clamping, no range check,
whatever the byte values), and `last_rx_ms` is the value the clock returned at
that call. -/
theorem raw_hid_receive_numeric_fields (mv : musicviz_state_t) (data : List Nat)
    (length now : Nat) (h : accepted data length) :
    (raw_hid_receive mv data length now).master_gain = data.getD 3 0 ∧
    (raw_hid_receive mv data length now).loudness_rms = data.getD 4 0 ∧
    (raw_hid_receive mv data length now).loudness_peak = data.getD 5 0 ∧
    (raw_hid_receive mv data length now).bass = data.getD 6 0 ∧
    (raw_hid_receive mv data length now).mid = data.getD 7 0 ∧
    (raw_hid_receive mv data length now).treble = data.getD 8 0 ∧
    (raw_hid_receive mv data length now).beat = data.getD 9 0 ∧
    (raw_hid_receive mv data length now).hue_bass = data.getD 10 0 ∧
    (raw_hid_receive mv data length now).hue_mid = data.getD 11 0 ∧
    (raw_hid_receive mv data length now).hue_treble = data.getD 12 0 ∧
    (raw_hid_receive mv data length now).saturation = data.getD 13 0 ∧
    (raw_hid_receive mv data length now).fx_speed = data.getD 14 0 ∧
    (raw_hid_receive mv data length now).shockwave_strength = data.getD 15 0 ∧
    (raw_hid_receive mv data length now).perimeter_sparkle = data.getD 16 0 ∧
    (raw_hid_receive mv data length now).beat_refractory_ms = data.getD 17 0 ∧
    (raw_hid_receive mv data length now).last_rx_ms = now := by
  rw [raw_hid_receive_accepted mv data length now h]
  exact ⟨rfl, rfl, rfl, rfl, rfl, rfl, rfl, rfl, rfl, rfl, rfl, rfl, rfl, rfl, rfl, rfl⟩

/-- C4, instance: the sample frame decoded over the sample record at clock
value 999; bytes 3 to 17 of the frame are 11 to 25. -/
theorem raw_hid_receive_numeric_fields_witness :
    accepted msg_sample 32 ∧
    (raw_hid_receive mv_sample msg_sample 32 999).master_gain = 11 ∧
    (raw_hid_receive mv_sample msg_sample 32 999).beat_refractory_ms = 25 ∧
    (raw_hid_receive mv_sample msg_sample 32 999).last_rx_ms = 999 :=
  ⟨by decide,
    (raw_hid_receive_numeric_fields mv_sample msg_sample 32 999 (by decide)).1,
    (raw_hid_receive_numeric_fields mv_sample msg_sample 32 999 (by decide)).2.2.2.2.2.2.2.2.2.2.2.2.2.2.1,
    (raw_hid_receive_numeric_fields mv_sample msg_sample 32 999 (by decide)).2.2.2.2.2.2.2.2.2.2.2.2.2.2.2⟩

/-- The frame built by `encode` carries bytes when the record is in range. -/
theorem encode_is_bytes (r : musicviz_state_t) (hi : Nat) (tail : List Nat)
    (hr : r.wf) (hb : flags_boolean r) (hhi : hi < 32) (ht : is_bytes tail) :
    is_bytes (encode r hi tail) := by
  obtain ⟨_, h1, h2, h3, h4, h5, h6, h7, h8, h9, h10, h11, h12, h13, h14, h15, _⟩ := hr
  obtain ⟨b0, b1, b2⟩ := hb
  intro b hmem
  unfold encode at hmem
  rw [List.mem_append] at hmem
  rcases hmem with hmem | hmem
  · simp only [List.mem_cons, List.mem_singleton, List.not_mem_nil, or_false] at hmem
    rcases hmem with e | e | e | e | e | e | e | e | e | e | e | e | e | e | e | e | e | e <;>
      omega
  · exact ht b hmem

/-- The flags byte built by `encode` has the three flags in bits 0 to 2. -/
theorem encode_flag_bits (e s t hi : Nat) (he : e ≤ 1) (hs : s ≤ 1) (ht : t ≤ 1) :
    ((e + 2 * s + 4 * t + 8 * hi).testBit 0).toNat = e ∧
    ((e + 2 * s + 4 * t + 8 * hi).testBit 1).toNat = s ∧
    ((e + 2 * s + 4 * t + 8 * hi).testBit 2).toNat = t := by
  have hm : (e + 2 * s + 4 * t + 8 * hi) % 8 = (e + 2 * s + 4 * t) % 8 := by omega
  rw [testBit_low3 _ _ 0 (by decide) hm, testBit_low3 _ _ 1 (by decide) hm,
    testBit_low3 _ _ 2 (by decide) hm]
  interval_cases e <;> interval_cases s <;> interval_cases t <;> decide

/-- C5. Round trip.  For every record `r` with boolean flags, every prior
state `mv`, every clock value `now`, any reserved bits `hi` and any fourteen
reserved bytes `tail`: decoding the 32-byte frame `encode r hi tail` stores a
record whose three flags and fifteen numeric fields are those of `r`, whose
`last_rx_ms` is `now`, and whose `last_beat_ms` is the one stored before. -/
theorem raw_hid_receive_encode (r mv : musicviz_state_t) (hi : Nat) (tail : List Nat)
    (now : Nat) (hb : flags_boolean r) (ht : tail.length = 14) :
    (encode r hi tail).length = 32 ∧
    raw_hid_receive mv (encode r hi tail) 32 now =
      { r with last_rx_ms := now, last_beat_ms := mv.last_beat_ms } := by
  have hacc : accepted (encode r hi tail) 32 := ⟨le_refl 32, rfl, rfl⟩
  obtain ⟨b0, b1, b2⟩ := hb
  obtain ⟨f0, f1, f2⟩ := encode_flag_bits r.enabled r.strobe_enable r.safety_limit hi b0 b1 b2
  constructor
  · unfold encode
    rw [List.length_append, ht]
    rfl
  · rw [raw_hid_receive_accepted mv _ 32 now hacc, flag_bit0, flag_bit1, flag_bit2]
    show ({ mv with
        enabled := ((r.enabled + 2 * r.strobe_enable + 4 * r.safety_limit + 8 * hi).testBit 0).toNat
        strobe_enable :=
          ((r.enabled + 2 * r.strobe_enable + 4 * r.safety_limit + 8 * hi).testBit 1).toNat
        safety_limit :=
          ((r.enabled + 2 * r.strobe_enable + 4 * r.safety_limit + 8 * hi).testBit 2).toNat
        master_gain := r.master_gain
        loudness_rms := r.loudness_rms
        loudness_peak := r.loudness_peak
        bass := r.bass
        mid := r.mid
        treble := r.treble
        beat := r.beat
        hue_bass := r.hue_bass
        hue_mid := r.hue_mid
        hue_treble := r.hue_treble
        saturation := r.saturation
        fx_speed := r.fx_speed
        shockwave_strength := r.shockwave_strength
        perimeter_sparkle := r.perimeter_sparkle
        beat_refractory_ms := r.beat_refractory_ms
        last_rx_ms := now } : musicviz_state_t) = _
    rw [f0, f1, f2]

/-- C5, instance: the sample record, sent with reserved bits `0b10101` and the
sample reserved bytes, decoded over the initial record at clock value 4242. -/
theorem raw_hid_receive_encode_witness :
    flags_boolean mv_sample ∧ tail_sample.length = 14 ∧
    (encode mv_sample 21 tail_sample).length = 32 ∧
    raw_hid_receive mv_init (encode mv_sample 21 tail_sample) 32 4242 =
      { mv_sample with last_rx_ms := 4242, last_beat_ms := mv_init.last_beat_ms } :=
  ⟨by decide, by decide,
    raw_hid_receive_encode mv_sample mv_init 21 tail_sample 4242 (by decide) (by decide)⟩

/-! ## Theorems: the tap-dance engine -/

/-- Reading back the slot `set_step` wrote. -/
theorem set_step_same (ds : dance_state_t) (i : Fin 4) (v : Nat) :
    (set_step ds i v i).step = v := by
  unfold set_step
  rw [Function.update_same]

/-- The slots `set_step` did not write. -/
theorem set_step_other (ds : dance_state_t) (i j : Fin 4) (v : Nat) (h : j ≠ i) :
    set_step ds i v j = ds j := by
  unfold set_step
  rw [Function.update_noteq h]

/-- Writing a slot twice keeps the second value. -/
theorem set_step_set_step (ds : dance_state_t) (i : Fin 4) (v w : Nat) :
    set_step (set_step ds i v) i w = set_step ds i w := by
  unfold set_step
  rw [Function.update_same, Function.update_idem]

/-- The four `dance_N_finished` functions in one formula: instance `i` stores
`dance_step state` in its own slot and runs its switch on the stored value with
a press of its combination. -/
theorem on_dance_finished_eq (i : Fin 4) (ds : dance_state_t) (state : tap_dance_state_t) :
    (tap_dance_actions i).on_dance_finished ds state =
      (set_step ds i (dance_step state),
        switch_double_tap (dance_step state) (register_code16 (combo i))) := by
  fin_cases i
  · show dance_0_finished ds state = _
    unfold dance_0_finished
    simp only [set_step_same]; rfl
  · show dance_1_finished ds state = _
    unfold dance_1_finished
    simp only [set_step_same]; rfl
  · show dance_2_finished ds state = _
    unfold dance_2_finished
    simp only [set_step_same]; rfl
  · show dance_3_finished ds state = _
    unfold dance_3_finished
    simp only [set_step_same]; rfl

/-- The four `dance_N_reset` functions in one formula: instance `i` waits
10 ms, runs its switch on the stored value with a release of its combination,
and stores 0 in its own slot. -/
theorem on_reset_eq (i : Fin 4) (ds : dance_state_t) (state : tap_dance_state_t) :
    (tap_dance_actions i).on_reset ds state =
      (set_step ds i 0,
        wait_ms 10 :: switch_double_tap (ds i).step (unregister_code16 (combo i))) := by
  fin_cases i <;> rfl

/-- The observations that classify as `DOUBLE_TAP`. -/
theorem dance_step_eq_double_tap (state : tap_dance_state_t) :
    dance_step state = DOUBLE_TAP ↔
      state.count = 2 ∧ state.interrupted = false ∧ state.pressed = false := by
  obtain ⟨c, i, p⟩ := state
  unfold dance_step
  by_cases h1 : c = 1
  · subst h1; cases i <;> cases p <;> decide
  · by_cases h2 : c = 2
    · subst h2; cases i <;> cases p <;> decide
    · simp only [h1, h2, if_false, false_and, iff_false]
      decide

/-- C6. The function `dance_step` is the decision table: count 1 gives
`SINGLE_TAP` when interrupted or not pressed and `SINGLE_HOLD` when not
interrupted and pressed; count 2 gives `DOUBLE_SINGLE_TAP` when interrupted,
`DOUBLE_HOLD` when not interrupted and pressed, `DOUBLE_TAP` when not
interrupted and not pressed; a count of 3 or more gives `MORE_TAPS` whatever
the two booleans.  At count 1 or 2 an interrupted observation gives the
same class whether or not the key is still pressed. -/
theorem dance_step_table (count : Nat) (interrupted pressed : Bool) :
    (count = 1 → (interrupted = true ∨ pressed = false) →
      dance_step ⟨count, interrupted, pressed⟩ = SINGLE_TAP) ∧
    (count = 1 → interrupted = false → pressed = true →
      dance_step ⟨count, interrupted, pressed⟩ = SINGLE_HOLD) ∧
    (count = 2 → interrupted = true →
      dance_step ⟨count, interrupted, pressed⟩ = DOUBLE_SINGLE_TAP) ∧
    (count = 2 → interrupted = false → pressed = true →
      dance_step ⟨count, interrupted, pressed⟩ = DOUBLE_HOLD) ∧
    (count = 2 → interrupted = false → pressed = false →
      dance_step ⟨count, interrupted, pressed⟩ = DOUBLE_TAP) ∧
    (3 ≤ count → dance_step ⟨count, interrupted, pressed⟩ = MORE_TAPS) ∧
    (count = 1 ∨ count = 2 →
      dance_step ⟨count, true, true⟩ = dance_step ⟨count, true, false⟩) := by
  refine ⟨?_, ?_, ?_, ?_, ?_, ?_, ?_⟩
  · intro hc hip
    subst hc
    rcases hip with h | h
    · subst h; cases pressed <;> rfl
    · subst h; cases interrupted <;> rfl
  · intro hc hi hp
    subst hc hi hp; rfl
  · intro hc hi
    subst hc hi; cases pressed <;> rfl
  · intro hc hi hp
    subst hc hi hp; rfl
  · intro hc hi hp
    subst hc hi hp; rfl
  · intro hc
    unfold dance_step
    have h1 : count ≠ 1 := by omega
    have h2 : count ≠ 2 := by omega
    simp only [h1, h2, if_false]
  · intro hc
    rcases hc with h | h <;> subst h <;> rfl

/-- C6, instances: the three examples of the specification and the tie-break
at counts 1 and 2. -/
theorem dance_step_table_witness :
    dance_step ⟨1, false, true⟩ = SINGLE_HOLD ∧
    dance_step ⟨2, false, false⟩ = DOUBLE_TAP ∧
    dance_step ⟨3, true, false⟩ = MORE_TAPS ∧
    dance_step ⟨1, true, true⟩ = SINGLE_TAP ∧
    dance_step ⟨2, true, true⟩ = dance_step ⟨2, true, false⟩ :=
  ⟨(dance_step_table 1 false true).2.1 rfl rfl rfl,
    (dance_step_table 2 false false).2.2.2.2.1 rfl rfl rfl,
    (dance_step_table 3 true false).2.2.2.2.2.1 (by decide),
    (dance_step_table 1 true true).1 rfl (Or.inl rfl),
    (dance_step_table 2 true true).2.2.2.2.2.2 (Or.inr rfl)⟩

/-- The trace and final array of an `on_finish` followed by an `on_reset`, both
on instance `i`. -/
theorem run_finish_reset (i : Fin 4) (ds : dance_state_t) (obs obs2 : tap_dance_state_t) :
    run_calls i ds [Call.on_finish obs, Call.on_reset obs2] =
      (set_step ds i 0,
        switch_double_tap (dance_step obs) (register_code16 (combo i)) ++
          (wait_ms 10 ::
            switch_double_tap (dance_step obs) (unregister_code16 (combo i)))) := by
  simp only [run_calls, run_call, on_dance_finished_eq, on_reset_eq, set_step_same,
    set_step_set_step, List.append_nil, List.cons_append, List.nil_append]

/-- C7. Gesture cycle.  For each instance `i`, from any stored class (none
included), `dance_i_finished` on an observation followed by `dance_i_reset`:
when the observation classifies as `DOUBLE_TAP` the calls made are exactly a
press of the combination, the 10 ms wait, and a release of the same
combination, in that order; when it classifies as anything else the only call
is the wait, so there is no key action; in both cases the stored class is 0
(none) at the end. -/
theorem gesture_cycle (i : Fin 4) (ds : dance_state_t) (obs obs2 : tap_dance_state_t) :
    (dance_step obs = DOUBLE_TAP →
      (run_calls i ds [Call.on_finish obs, Call.on_reset obs2]).2 =
        [register_code16 (combo i), wait_ms 10, unregister_code16 (combo i)] ∧
      key_actions (run_calls i ds [Call.on_finish obs, Call.on_reset obs2]).2 =
        [register_code16 (combo i), unregister_code16 (combo i)]) ∧
    (dance_step obs ≠ DOUBLE_TAP →
      (run_calls i ds [Call.on_finish obs, Call.on_reset obs2]).2 = [wait_ms 10] ∧
      key_actions (run_calls i ds [Call.on_finish obs, Call.on_reset obs2]).2 = []) ∧
    ((run_calls i ds [Call.on_finish obs, Call.on_reset obs2]).1 i).step = 0 := by
  rw [run_finish_reset]
  refine ⟨?_, ?_, ?_⟩
  · intro h
    simp only [switch_double_tap, h, if_true]
    exact ⟨rfl, rfl⟩
  · intro h
    simp only [switch_double_tap, h, if_false]
    exact ⟨rfl, rfl⟩
  · exact set_step_same ds i 0

/-- C7, instances: on instance 0, from the zero-initialised array, a double
tap gives press, wait, release of `RGUI(KC_L)`; on instance 1 a single tap that
is held gives only the wait. -/
theorem gesture_cycle_witness :
    (dance_state_init 0).step = 0 ∧
    dance_step obs_double_tap = DOUBLE_TAP ∧
    (run_calls 0 dance_state_init [Call.on_finish obs_double_tap,
        Call.on_reset obs_double_tap]).2 =
      [register_code16 (RGUI KC_L), wait_ms 10, unregister_code16 (RGUI KC_L)] ∧
    dance_step obs_single_hold = SINGLE_HOLD ∧
    key_actions (run_calls 1 dance_state_init [Call.on_finish obs_single_hold,
        Call.on_reset obs_single_hold]).2 = [] :=
  ⟨rfl, rfl,
    ((gesture_cycle 0 dance_state_init obs_double_tap obs_double_tap).1 rfl).1,
    rfl,
    ((gesture_cycle 1 dance_state_init obs_single_hold obs_single_hold).2.1 (by decide)).2⟩

/-- C9. Reset is idempotent.  For each instance `i` and every stored class, a
second `dance_i_reset` with no `dance_i_finished` in between makes no key
action (its only call is the wait), leaves the stored class 0 (none), and
leaves the whole array as the first reset left it. -/
theorem reset_idempotent (i : Fin 4) (ds : dance_state_t) (obs obs2 : tap_dance_state_t) :
    key_actions
        ((tap_dance_actions i).on_reset ((tap_dance_actions i).on_reset ds obs).1 obs2).2 = [] ∧
    ((tap_dance_actions i).on_reset ((tap_dance_actions i).on_reset ds obs).1 obs2).2 =
      [wait_ms 10] ∧
    (((tap_dance_actions i).on_reset ((tap_dance_actions i).on_reset ds obs).1 obs2).1 i).step
      = 0 ∧
    ((tap_dance_actions i).on_reset ((tap_dance_actions i).on_reset ds obs).1 obs2).1 =
      ((tap_dance_actions i).on_reset ds obs).1 := by
  simp only [on_reset_eq]
  have hsw : switch_double_tap (set_step ds i 0 i).step (unregister_code16 (combo i)) = [] := by
    rw [set_step_same]; rfl
  rw [hsw, set_step_set_step]
  exact ⟨rfl, rfl, set_step_same ds i 0, rfl⟩

/-- C10. For each instance `i` and every observation, `dance_i_finished`
stores `dance_step` of the observation in `dance_state[i].step`; when that class
is `DOUBLE_TAP` its only call is one press of the combination of the instance,
and for each of the other five classes it makes no call; a press of the
combination occurs exactly once if and only if the class is `DOUBLE_TAP`; it
never makes a release. -/
theorem finished_stores_and_presses (i : Fin 4) (ds : dance_state_t)
    (obs : tap_dance_state_t) :
    (((tap_dance_actions i).on_dance_finished ds obs).1 i).step = dance_step obs ∧
    (dance_step obs = DOUBLE_TAP →
      ((tap_dance_actions i).on_dance_finished ds obs).2 = [register_code16 (combo i)]) ∧
    (dance_step obs = SINGLE_TAP ∨ dance_step obs = SINGLE_HOLD ∨
        dance_step obs = DOUBLE_HOLD ∨ dance_step obs = DOUBLE_SINGLE_TAP ∨
        dance_step obs = MORE_TAPS →
      ((tap_dance_actions i).on_dance_finished ds obs).2 = []) ∧
    ((((tap_dance_actions i).on_dance_finished ds obs).2.count (register_code16 (combo i)) = 1 ∧
        key_actions ((tap_dance_actions i).on_dance_finished ds obs).2 =
          [register_code16 (combo i)]) ↔
      dance_step obs = DOUBLE_TAP) ∧
    (∀ kc : Keycode,
      unregister_code16 kc ∉ ((tap_dance_actions i).on_dance_finished ds obs).2) := by
  rw [on_dance_finished_eq]
  refine ⟨set_step_same ds i _, ?_, ?_, ?_, ?_⟩
  · intro h
    simp only [switch_double_tap, h, if_true]
  · intro h
    have hne : dance_step obs ≠ DOUBLE_TAP := by
      rcases h with h | h | h | h | h <;> rw [h] <;> decide
    simp only [switch_double_tap, hne, if_false]
  · by_cases h : dance_step obs = DOUBLE_TAP
    · simp only [switch_double_tap, h, if_true, iff_true]
      exact ⟨by simp, rfl⟩
    · simp only [switch_double_tap, h, if_false, iff_false]
      intro hc
      exact absurd hc.1 (by simp)
  · intro kc
    by_cases h : dance_step obs = DOUBLE_TAP
    · simp only [switch_double_tap, h, if_true]
      simp
    · simp only [switch_double_tap, h, if_false]
      simp

/-- C10, instances: on instance 2 a double tap stores 3 and presses
`LCTL(LGUI(KC_Q))`; on instance 3 a single tap stores 1 and makes no call. -/
theorem finished_stores_and_presses_witness :
    ((tap_dance_actions 2).on_dance_finished dance_state_init obs_double_tap).2 =
      [register_code16 (LCTL (LGUI KC_Q))] ∧
    (((tap_dance_actions 2).on_dance_finished dance_state_init obs_double_tap).1 2).step = 3 ∧
    ((tap_dance_actions 3).on_dance_finished dance_state_init obs_single_tap).2 = [] ∧
    (((tap_dance_actions 3).on_dance_finished dance_state_init obs_single_tap).1 3).step = 1 :=
  ⟨(finished_stores_and_presses 2 dance_state_init obs_double_tap).2.1 rfl,
    (finished_stores_and_presses 2 dance_state_init obs_double_tap).1,
    (finished_stores_and_presses 3 dance_state_init obs_single_tap).2.2.1 (Or.inl rfl),
    (finished_stores_and_presses 3 dance_state_init obs_single_tap).1⟩

/-! ### Sequences of recogniser calls -/

/-- Running a non-empty sequence: the first call, then the others from the
array it leaves. -/
theorem run_calls_cons (i : Fin 4) (ds : dance_state_t) (c : Call) (rest : List Call) :
    run_calls i ds (c :: rest) =
      ((run_calls i (run_call i ds c).1 rest).1,
        (run_call i ds c).2 ++ (run_calls i (run_call i ds c).1 rest).2) := rfl

/-- One call in closed form. -/
theorem run_call_eq (i : Fin 4) (ds : dance_state_t) (c : Call) :
    run_call i ds c =
      match c with
      | Call.on_finish obs =>
        (set_step ds i (dance_step obs),
          switch_double_tap (dance_step obs) (register_code16 (combo i)))
      | Call.on_reset _ =>
        (set_step ds i 0,
          wait_ms 10 :: switch_double_tap (ds i).step (unregister_code16 (combo i))) := by
  cases c with
  | on_finish obs => exact on_dance_finished_eq i ds obs
  | on_reset obs => exact on_reset_eq i ds obs

/-- Unfolding `every_press_released` on a non-empty trace. -/
theorem every_press_released_cons (kc : Keycode) (e : Effect) (rest : List Effect) :
    every_press_released kc (e :: rest) = true ↔
      (e = register_code16 kc → unregister_code16 kc ∈ rest) ∧
        every_press_released kc rest = true := by
  rw [every_press_released]
  by_cases h : e = register_code16 kc <;> simp [h]

/-- Presses of a first trace may be answered in a second one. -/
theorem every_press_released_append (kc : Keycode) (a b : List Effect) :
    every_press_released kc (a ++ b) = true ↔
      every_press_released kc b = true ∧
        (every_press_released kc a = true ∨ unregister_code16 kc ∈ b) := by
  induction a with
  | nil => simp [every_press_released]
  | cons e a ih =>
    rw [List.cons_append, every_press_released_cons, every_press_released_cons, ih,
      List.mem_append]
    tauto

/-- A trace without a press of `kc` has every press of `kc` released. -/
theorem every_press_released_of_not_mem (kc : Keycode) (tr : List Effect)
    (h : register_code16 kc ∉ tr) : every_press_released kc tr = true := by
  induction tr with
  | nil => rfl
  | cons e tr ih =>
    rw [every_press_released_cons]
    rw [List.mem_cons, not_or] at h
    exact ⟨fun he => absurd he.symm h.1, ih h.2⟩

/-- The key is up after a trace exactly when every press in it is released
and, if the key was down before, the trace holds a release. -/
theorem key_down_eq_false (kc : Keycode) (before : Bool) (tr : List Effect) :
    key_down kc before tr = false ↔
      every_press_released kc tr = true ∧ (before = true → unregister_code16 kc ∈ tr) := by
  induction tr generalizing before with
  | nil => cases before <;> simp [key_down, every_press_released]
  | cons e tr ih =>
    have hstep : key_down kc before (e :: tr) =
        key_down kc
          (if e = register_code16 kc then true
            else if e = unregister_code16 kc then false else before) tr := rfl
    rw [hstep, ih, every_press_released_cons, List.mem_cons]
    by_cases h1 : e = register_code16 kc
    · subst h1
      simp
      tauto
    · by_cases h2 : e = unregister_code16 kc
      · subst h2
        simp
      · have h2' : ¬ unregister_code16 kc = e := fun h => h2 h.symm
        simp [h1, h2, h2']

/-- Without a `DOUBLE_TAP` finish the trace holds no press. -/
theorem no_press_of_no_double_tap (i : Fin 4) (calls : List Call) (ds : dance_state_t)
    (h : calls.any Call.is_double_tap = false) :
    register_code16 (combo i) ∉ (run_calls i ds calls).2 := by
  induction calls generalizing ds with
  | nil => simp [run_calls]
  | cons c rest ih =>
    rw [List.any_cons, Bool.or_eq_false_iff] at h
    rw [run_calls_cons, List.mem_append, not_or]
    refine ⟨?_, ih _ h.2⟩
    rw [run_call_eq]
    cases c with
    | on_finish obs =>
      have hne : dance_step obs ≠ DOUBLE_TAP := by simpa [Call.is_double_tap] using h.1
      simp [switch_double_tap, hne]
    | on_reset obs =>
      simp [switch_double_tap]

/-- Without a `DOUBLE_TAP` finish, the trace holds a release exactly when the
stored class is `DOUBLE_TAP` and the first call is a reset. -/
theorem release_of_no_double_tap (i : Fin 4) (calls : List Call) (ds : dance_state_t)
    (h : calls.any Call.is_double_tap = false) :
    unregister_code16 (combo i) ∈ (run_calls i ds calls).2 ↔
      (ds i).step = DOUBLE_TAP ∧ starts_with_reset calls = true := by
  induction calls generalizing ds with
  | nil => simp [run_calls, starts_with_reset]
  | cons c rest ih =>
    rw [List.any_cons, Bool.or_eq_false_iff] at h
    rw [run_calls_cons, List.mem_append, ih _ h.2, run_call_eq]
    cases c with
    | on_finish obs =>
      have hne : dance_step obs ≠ DOUBLE_TAP := by simpa [Call.is_double_tap] using h.1
      simp [switch_double_tap, hne, set_step_same, starts_with_reset]
    | on_reset obs =>
      simp only [set_step_same, starts_with_reset]
      by_cases hs : (ds i).step = DOUBLE_TAP
      · simp [switch_double_tap, hs]
      · simp [switch_double_tap, hs, DOUBLE_TAP]

/-- When some finish classifies as `DOUBLE_TAP` and the last such finish is
directly followed by a reset, the trace holds a release. -/
theorem release_of_last_double_tap (i : Fin 4) (calls : List Call) (ds : dance_state_t)
    (hany : calls.any Call.is_double_tap = true)
    (hl : last_double_tap_then_reset calls = true) :
    unregister_code16 (combo i) ∈ (run_calls i ds calls).2 := by
  induction calls generalizing ds with
  | nil => simp at hany
  | cons c rest ih =>
    rw [run_calls_cons, List.mem_append]
    right
    unfold last_double_tap_then_reset at hl
    by_cases hr : rest.any Call.is_double_tap = true
    · rw [if_pos hr] at hl
      exact ih _ hr hl
    · rw [if_neg hr] at hl
      rw [Bool.not_eq_true] at hr
      rw [List.any_cons, hr, Bool.or_false] at hany
      rw [hany] at hl
      rw [release_of_no_double_tap i rest _ hr, run_call_eq]
      cases c with
      | on_finish obs =>
        have hd : dance_step obs = DOUBLE_TAP := by simpa [Call.is_double_tap] using hany
        exact ⟨by rw [set_step_same]; exact hd, by simpa using hl⟩
      | on_reset obs => simp [Call.is_double_tap] at hany

/-- Every press in the trace of a call sequence is released exactly when the
last `DOUBLE_TAP` finish, if any, is directly followed by a reset. -/
theorem every_press_released_run_calls (i : Fin 4) (calls : List Call) (ds : dance_state_t) :
    every_press_released (combo i) (run_calls i ds calls).2 = true ↔
      last_double_tap_then_reset calls = true := by
  induction calls generalizing ds with
  | nil => simp [run_calls, every_press_released, last_double_tap_then_reset]
  | cons c rest ih =>
    rw [run_calls_cons, every_press_released_append, ih]
    conv_rhs => unfold last_double_tap_then_reset
    by_cases hr : rest.any Call.is_double_tap = true
    · rw [if_pos hr]
      constructor
      · exact fun h => h.1
      · exact fun h => ⟨h, Or.inr (release_of_last_double_tap i rest _ hr h)⟩
    · rw [if_neg hr]
      rw [Bool.not_eq_true] at hr
      have hrest : last_double_tap_then_reset rest = true := by
        rw [← ih ds]
        exact every_press_released_of_not_mem _ _ (no_press_of_no_double_tap i rest ds hr)
      rw [release_of_no_double_tap i rest _ hr, run_call_eq]
      cases c with
      | on_finish obs =>
        by_cases hd : dance_step obs = DOUBLE_TAP
        · simp [hrest, Call.is_double_tap, hd, switch_double_tap, set_step_same,
            every_press_released]
        · simp [hrest, Call.is_double_tap, hd, switch_double_tap, every_press_released]
      | on_reset obs =>
        have hp : every_press_released (combo i)
            (wait_ms 10 :: switch_double_tap (ds i).step (unregister_code16 (combo i))) = true := by
          apply every_press_released_of_not_mem
          simp [switch_double_tap]
        simp [hrest, Call.is_double_tap, hp]

/-- A sequence without retries that ends with a reset has its last
`DOUBLE_TAP` finish directly followed by a reset. -/
theorem last_double_tap_then_reset_of_no_retry (calls : List Call)
    (hn : no_retry calls = true) (he : ends_with_reset calls = true) :
    last_double_tap_then_reset calls = true := by
  induction calls with
  | nil => rfl
  | cons c rest ih =>
    unfold last_double_tap_then_reset
    cases rest with
    | nil =>
      cases c with
      | on_finish obs => simp [ends_with_reset] at he
      | on_reset obs => simp [Call.is_double_tap]
    | cons d rest2 =>
      have he2 : ends_with_reset (d :: rest2) = true := by
        simpa [ends_with_reset, List.getLast?_cons_cons] using he
      have hn2 : no_retry (d :: rest2) = true := by
        cases c <;> cases d <;> simp_all [no_retry]
      by_cases hr : (d :: rest2).any Call.is_double_tap = true
      · rw [if_pos hr]; exact ih hn2 he2
      · rw [if_neg hr]
        cases c <;> cases d <;> simp_all [no_retry, starts_with_reset, Call.is_double_tap]

/-- C8, as stated, fails.  On instance 0, from the zero-initialised array
(stored class none), the sequence `on_finish` (count 2, not interrupted, not
pressed), `on_finish` (count 1, not interrupted, not pressed), `on_reset` ends
with a reset, yet its trace is the press of `RGUI(KC_L)` followed by the wait
only: the second finish overwrote the stored `DOUBLE_TAP` with `SINGLE_TAP`,
so the reset released nothing and the virtual key is left down. -/
theorem retry_leaves_key_pressed :
    (dance_state_init 0).step = 0 ∧
    ends_with_reset calls_retry = true ∧
    (run_calls 0 dance_state_init calls_retry).2 =
      [register_code16 (RGUI KC_L), wait_ms 10] ∧
    every_press_released (combo 0) (run_calls 0 dance_state_init calls_retry).2 = false ∧
    key_down (combo 0) false (run_calls 0 dance_state_init calls_retry).2 = true ∧
    ((run_calls 0 dance_state_init calls_retry).1 0).step = 0 := by
  refine ⟨rfl, rfl, ?_, ?_, ?_, ?_⟩ <;> decide

/-- After a sequence that ends with a reset the stored class is 0 (none). -/
theorem step_zero_of_ends_with_reset (i : Fin 4) (calls : List Call) (ds : dance_state_t)
    (he : ends_with_reset calls = true) : ((run_calls i ds calls).1 i).step = 0 := by
  induction calls generalizing ds with
  | nil => simp [ends_with_reset] at he
  | cons c rest ih =>
    rw [run_calls_cons]
    cases rest with
    | nil =>
      cases c with
      | on_finish obs => simp [ends_with_reset] at he
      | on_reset obs =>
        show ((run_call i ds (Call.on_reset obs)).1 i).step = 0
        rw [run_call_eq]
        exact set_step_same ds i 0
    | cons d rest2 =>
      have he2 : ends_with_reset (d :: rest2) = true := by
        simpa [ends_with_reset, List.getLast?_cons_cons] using he
      exact ih _ he2

/-- C8, amended.  For each instance `i` and every finite sequence of
`on_finish` and `on_reset` calls on it that starts from stored class 0 (none),
with the virtual key up, and ends with an `on_reset`: every press of the
combination of that instance is followed later in the trace by a release of it
if and only if the last `on_finish` that classifies as `DOUBLE_TAP`, when there
is one, is immediately followed by an `on_reset`; the virtual key is up after
the final `on_reset` under exactly the same condition.  In particular both hold
when `on_finish` is never invoked twice without an `on_reset` in between.  The
stored class is 0 (none) again at the end. -/
theorem press_release_pairing (i : Fin 4) (ds : dance_state_t) (calls : List Call)
    (_hstart : (ds i).step = 0) (hend : ends_with_reset calls = true) :
    (every_press_released (combo i) (run_calls i ds calls).2 = true ↔
      last_double_tap_then_reset calls = true) ∧
    (key_down (combo i) false (run_calls i ds calls).2 = false ↔
      last_double_tap_then_reset calls = true) ∧
    (no_retry calls = true →
      every_press_released (combo i) (run_calls i ds calls).2 = true ∧
      key_down (combo i) false (run_calls i ds calls).2 = false) ∧
    ((run_calls i ds calls).1 i).step = 0 := by
  have hk : key_down (combo i) false (run_calls i ds calls).2 = false ↔
      last_double_tap_then_reset calls = true := by
    rw [key_down_eq_false, every_press_released_run_calls]
    simp
  refine ⟨every_press_released_run_calls i calls ds, hk, ?_,
    step_zero_of_ends_with_reset i calls ds hend⟩
  intro hn
  have hl := last_double_tap_then_reset_of_no_retry calls hn hend
  exact ⟨(every_press_released_run_calls i calls ds).mpr hl, hk.mpr hl⟩

/-- C8 amended, instances on instance 0 from the zero-initialised array
(stored class none): two complete gestures without retry, and a retry that
repeats the `DOUBLE_TAP` finish before the reset. -/
theorem press_release_pairing_witness :
    (dance_state_init 0).step = 0 ∧
    (ends_with_reset calls_plain = true ∧ no_retry calls_plain = true ∧
      every_press_released (combo 0) (run_calls 0 dance_state_init calls_plain).2 = true ∧
      key_down (combo 0) false (run_calls 0 dance_state_init calls_plain).2 = false) ∧
    (ends_with_reset calls_retry_same = true ∧ no_retry calls_retry_same = false ∧
      last_double_tap_then_reset calls_retry_same = true ∧
      every_press_released (combo 0) (run_calls 0 dance_state_init calls_retry_same).2 = true ∧
      key_down (combo 0) false (run_calls 0 dance_state_init calls_retry_same).2 = false) :=
  ⟨rfl,
    ⟨rfl, rfl, (press_release_pairing 0 dance_state_init calls_plain rfl rfl).2.2.1 rfl⟩,
    ⟨rfl, rfl, rfl,
      (press_release_pairing 0 dance_state_init calls_retry_same rfl rfl).1.mpr rfl,
      (press_release_pairing 0 dance_state_init calls_retry_same rfl rfl).2.1.mpr rfl⟩⟩

/-! ## Theorems: reset, independence of the instances, and frame properties -/

/-- The slot `set_step` wrote: the old slot with its `step` replaced. -/
theorem set_step_self (ds : dance_state_t) (i : Fin 4) (v : Nat) :
    set_step ds i v i = { ds i with step := v } := by
  unfold set_step
  rw [Function.update_same]

/-- C11. For each instance `i` and every stored class `s = dance_state[i].step`,
`dance_i_reset` first waits 10 ms; then, when `s` is `DOUBLE_TAP`, it makes
exactly one release of the combination of the instance, and for any other `s`
no further call; a release occurs exactly once if and only if `s` is
`DOUBLE_TAP`; it never makes a press; and in every case it ends with
`dance_state[i].step = 0`. -/
theorem reset_waits_then_releases (i : Fin 4) (ds : dance_state_t)
    (obs : tap_dance_state_t) :
    ((tap_dance_actions i).on_reset ds obs).2.head? = some (wait_ms 10) ∧
    ((ds i).step = DOUBLE_TAP →
      ((tap_dance_actions i).on_reset ds obs).2 =
        [wait_ms 10, unregister_code16 (combo i)]) ∧
    ((ds i).step ≠ DOUBLE_TAP →
      ((tap_dance_actions i).on_reset ds obs).2 = [wait_ms 10]) ∧
    ((((tap_dance_actions i).on_reset ds obs).2.count (unregister_code16 (combo i)) = 1 ∧
        key_actions ((tap_dance_actions i).on_reset ds obs).2 =
          [unregister_code16 (combo i)]) ↔
      (ds i).step = DOUBLE_TAP) ∧
    (∀ kc : Keycode, register_code16 kc ∉ ((tap_dance_actions i).on_reset ds obs).2) ∧
    (((tap_dance_actions i).on_reset ds obs).1 i).step = 0 := by
  rw [on_reset_eq]
  refine ⟨rfl, ?_, ?_, ?_, ?_, set_step_same ds i 0⟩
  · intro h
    simp only [switch_double_tap, h, if_true]
  · intro h
    simp only [switch_double_tap, h, if_false]
  · by_cases h : (ds i).step = DOUBLE_TAP
    · simp only [switch_double_tap, h, if_true, iff_true]
      exact ⟨by simp, rfl⟩
    · simp only [switch_double_tap, h, if_false, iff_false]
      intro hc
      exact absurd hc.1 (by simp)
  · intro kc
    by_cases h : (ds i).step = DOUBLE_TAP
    · simp only [switch_double_tap, h, if_true]
      simp
    · simp only [switch_double_tap, h, if_false]
      simp

/-- C11, instances on the sample array: slot 0 holds `DOUBLE_TAP`, so the reset
of instance 0 waits and releases `RGUI(KC_L)`; slot 1 holds `DOUBLE_HOLD`, so
the reset of instance 1 only waits. -/
theorem reset_waits_then_releases_witness :
    (ds_sample 0).step = DOUBLE_TAP ∧
    ((tap_dance_actions 0).on_reset ds_sample obs_double_tap).2 =
      [wait_ms 10, unregister_code16 (RGUI KC_L)] ∧
    (ds_sample 1).step ≠ DOUBLE_TAP ∧
    ((tap_dance_actions 1).on_reset ds_sample obs_double_tap).2 = [wait_ms 10] ∧
    (((tap_dance_actions 1).on_reset ds_sample obs_double_tap).1 1).step = 0 :=
  ⟨rfl,
    (reset_waits_then_releases 0 ds_sample obs_double_tap).2.1 rfl,
    by decide,
    (reset_waits_then_releases 1 ds_sample obs_double_tap).2.2.1 (by decide),
    (reset_waits_then_releases 1 ds_sample obs_double_tap).2.2.2.2.2⟩

/-- C12. Instance independence.  For distinct instances `i` and `j`, every
observation and every array: `dance_i_finished` and `dance_i_reset` leave
`dance_state[j]` as it was; and on any second array that agrees with the first on
slot `i` (and differs arbitrarily on the others) they make the same calls and
store the same value in slot `i`. -/
theorem instance_independence (i j : Fin 4) (hij : i ≠ j) (ds : dance_state_t)
    (obs : tap_dance_state_t) :
    ((tap_dance_actions i).on_dance_finished ds obs).1 j = ds j ∧
    ((tap_dance_actions i).on_reset ds obs).1 j = ds j ∧
    (∀ ds2 : dance_state_t, ds2 i = ds i →
      ((tap_dance_actions i).on_dance_finished ds2 obs).2 =
        ((tap_dance_actions i).on_dance_finished ds obs).2 ∧
      ((tap_dance_actions i).on_reset ds2 obs).2 =
        ((tap_dance_actions i).on_reset ds obs).2 ∧
      ((tap_dance_actions i).on_dance_finished ds2 obs).1 i =
        ((tap_dance_actions i).on_dance_finished ds obs).1 i ∧
      ((tap_dance_actions i).on_reset ds2 obs).1 i =
        ((tap_dance_actions i).on_reset ds obs).1 i) := by
  refine ⟨?_, ?_, ?_⟩
  · rw [on_dance_finished_eq]
    exact set_step_other ds i j _ (Ne.symm hij)
  · rw [on_reset_eq]
    exact set_step_other ds i j _ (Ne.symm hij)
  · intro ds2 h2
    rw [on_dance_finished_eq, on_dance_finished_eq, on_reset_eq, on_reset_eq]
    refine ⟨rfl, ?_, ?_, ?_⟩
    · rw [h2]
    · show set_step ds2 i (dance_step obs) i = set_step ds i (dance_step obs) i
      rw [set_step_self, set_step_self, h2]
    · show set_step ds2 i 0 i = set_step ds i 0 i
      rw [set_step_self, set_step_self, h2]

/-- C12, instance: on the sample array, a double tap finished on instance 0
leaves slot 1 alone, and the reset of instance 0 makes the same calls on the
array in which slot 1 was overwritten. -/
theorem instance_independence_witness :
    (0 : Fin 4) ≠ 1 ∧
    ((tap_dance_actions 0).on_dance_finished ds_sample obs_double_tap).1 1 = ds_sample 1 ∧
    ((tap_dance_actions 0).on_reset (set_step ds_sample 1 0) obs_double_tap).2 =
      ((tap_dance_actions 0).on_reset ds_sample obs_double_tap).2 :=
  ⟨by decide,
    (instance_independence 0 1 (by decide) ds_sample obs_double_tap).1,
    ((instance_independence 0 1 (by decide) ds_sample obs_double_tap).2.2
      (set_step ds_sample 1 0) rfl).2.1⟩

/-- A message that is not accepted leaves the record as it was. -/
theorem raw_hid_receive_rejected (mv : musicviz_state_t) (data : List Nat) (length now : Nat)
    (h : ¬ accepted data length) : raw_hid_receive mv data length now = mv := by
  unfold raw_hid_receive
  by_cases h32 : length < 32
  · rw [if_pos h32]
  · rw [if_neg h32]
    by_cases h0 : data.getD 0 0 = 0x4D
    · rw [if_neg (not_not.mpr h0)]
      by_cases h1 : data.getD 1 0 = 0x01
      · exact absurd ⟨Nat.le_of_not_lt h32, h0, h1⟩ h
      · rw [if_pos h1]
    · rw [if_pos h0]

/-- C13. The decoder ignores bytes beyond offset 17.  For every prior state
and clock value, two accepted messages that agree on bytes 0 to 17, whatever
their later bytes and their lengths, leave the same stored record. -/
theorem raw_hid_receive_ignores_tail (mv : musicviz_state_t) (data1 data2 : List Nat)
    (length1 length2 now : Nat) (h1 : accepted data1 length1) (h2 : accepted data2 length2)
    (hagree : ∀ k, k ≤ 17 → data1.getD k 0 = data2.getD k 0) :
    raw_hid_receive mv data1 length1 now = raw_hid_receive mv data2 length2 now := by
  rw [raw_hid_receive_accepted mv data1 length1 now h1,
    raw_hid_receive_accepted mv data2 length2 now h2,
    hagree 2 (by decide), hagree 3 (by decide), hagree 4 (by decide), hagree 5 (by decide),
    hagree 6 (by decide), hagree 7 (by decide), hagree 8 (by decide), hagree 9 (by decide),
    hagree 10 (by decide), hagree 11 (by decide), hagree 12 (by decide),
    hagree 13 (by decide), hagree 14 (by decide), hagree 15 (by decide),
    hagree 16 (by decide), hagree 17 (by decide)]

/-- C13, instance: the 32-byte sample frame and the 40-byte frame that shares
its first eighteen bytes only, decoded over the sample record. -/
theorem raw_hid_receive_ignores_tail_witness :
    accepted msg_sample 32 ∧ accepted msg_sample_long 40 ∧
    (∀ k, k ≤ 17 → msg_sample.getD k 0 = msg_sample_long.getD k 0) ∧
    msg_sample.drop 18 ≠ msg_sample_long.drop 18 ∧
    raw_hid_receive mv_sample msg_sample 32 999 =
      raw_hid_receive mv_sample msg_sample_long 40 999 :=
  ⟨by decide, by decide, by decide, by decide,
    raw_hid_receive_ignores_tail mv_sample msg_sample msg_sample_long 32 40 999
      (by decide) (by decide) (by decide)⟩

/-- C14. The function `dance_step` returns `MORE_TAPS` for exactly the tap
counts other than 1 and 2, a count of 0 included; its result is always one of
the six classes 1 to 6 and never 0; so after `dance_i_finished` the class
stored for instance `i` is never 0 (none). -/
theorem dance_step_more_taps (state : tap_dance_state_t) :
    (dance_step state = MORE_TAPS ↔ state.count ≠ 1 ∧ state.count ≠ 2) ∧
    (state.count = 0 → dance_step state = MORE_TAPS) ∧
    (1 ≤ dance_step state ∧ dance_step state ≤ 6) ∧
    dance_step state ≠ 0 ∧
    (∀ (i : Fin 4) (ds : dance_state_t),
      (((tap_dance_actions i).on_dance_finished ds state).1 i).step ≠ 0) := by
  obtain ⟨c, ir, p⟩ := state
  have hrange : 1 ≤ dance_step ⟨c, ir, p⟩ ∧ dance_step ⟨c, ir, p⟩ ≤ 6 := by
    unfold dance_step
    by_cases h1 : c = 1
    · subst h1; cases ir <;> cases p <;> decide
    · by_cases h2 : c = 2
      · subst h2; cases ir <;> cases p <;> decide
      · simp only [h1, h2, if_false]
        decide
  have hmore : dance_step ⟨c, ir, p⟩ = MORE_TAPS ↔ c ≠ 1 ∧ c ≠ 2 := by
    unfold dance_step
    by_cases h1 : c = 1
    · subst h1; cases ir <;> cases p <;> decide
    · by_cases h2 : c = 2
      · subst h2; cases ir <;> cases p <;> decide
      · simp only [h1, h2, if_false, ne_eq, not_false_eq_true, and_self]
  refine ⟨hmore, ?_, hrange, ?_, ?_⟩
  · intro h0
    have h0c : c = 0 := h0
    exact hmore.mpr ⟨by omega, by omega⟩
  · exact Nat.pos_iff_ne_zero.mp hrange.1
  · intro i ds
    rw [on_dance_finished_eq]
    show (set_step ds i (dance_step ⟨c, ir, p⟩) i).step ≠ 0
    rw [set_step_same]
    exact Nat.pos_iff_ne_zero.mp hrange.1

/-- C14, instances: a count of 0 classifies as `MORE_TAPS`, and finishing that
observation on instance 2 of the zero-initialised array stores 6. -/
theorem dance_step_more_taps_witness :
    obs_zero.count = 0 ∧ dance_step obs_zero = MORE_TAPS ∧
    (((tap_dance_actions 2).on_dance_finished dance_state_init obs_zero).1 2).step ≠ 0 :=
  ⟨rfl, (dance_step_more_taps obs_zero).2.1 rfl,
    (dance_step_more_taps obs_zero).2.2.2.2 2 dance_state_init⟩

/-- C15. For every prior state and every message, accepted or rejected,
`raw_hid_receive` leaves `last_beat_ms` as it was. -/
theorem raw_hid_receive_last_beat_ms (mv : musicviz_state_t) (data : List Nat)
    (length now : Nat) :
    (raw_hid_receive mv data length now).last_beat_ms = mv.last_beat_ms := by
  by_cases h : accepted data length
  · rw [raw_hid_receive_accepted mv data length now h]
  · rw [raw_hid_receive_rejected mv data length now h]

/-- C16. An accepted message overwrites the whole decoded record: for every
accepted message and clock value, two prior states with the same
`last_beat_ms` give the same stored record; and decoding the same accepted
message a second time at the same clock value gives the record of the first
decoding. -/
theorem raw_hid_receive_overwrites (mv1 mv2 : musicviz_state_t) (data : List Nat)
    (length now : Nat) (h : accepted data length)
    (hb : mv1.last_beat_ms = mv2.last_beat_ms) :
    raw_hid_receive mv1 data length now = raw_hid_receive mv2 data length now ∧
    raw_hid_receive (raw_hid_receive mv1 data length now) data length now =
      raw_hid_receive mv1 data length now := by
  constructor
  · rw [raw_hid_receive_accepted mv1 data length now h,
      raw_hid_receive_accepted mv2 data length now h, hb]
  · rw [raw_hid_receive_accepted (raw_hid_receive mv1 data length now) data length now h,
      raw_hid_receive_accepted mv1 data length now h]

/-- C16, instance: the sample frame decoded at clock value 999 over two
records that differ in every field except `last_beat_ms`. -/
theorem raw_hid_receive_overwrites_witness :
    accepted msg_sample 32 ∧ mv_sample.last_beat_ms = mv_other.last_beat_ms ∧
    mv_sample.master_gain ≠ mv_other.master_gain ∧
    raw_hid_receive mv_sample msg_sample 32 999 = raw_hid_receive mv_other msg_sample 32 999 ∧
    raw_hid_receive (raw_hid_receive mv_sample msg_sample 32 999) msg_sample 32 999 =
      raw_hid_receive mv_sample msg_sample 32 999 :=
  ⟨by decide, rfl, by decide,
    raw_hid_receive_overwrites mv_sample mv_other msg_sample 32 999 (by decide) rfl⟩

end MusicViz
